import Mathlib

/-!
Shallow embedding of the version-suggestion heuristic of
`scripts/check_compose_images.py` and of the whitelist filter of
`scripts/docker_volume_sync.py`, together with theorems about them.

Tags, tag suffixes and notes are `String`s, as in the Python source; the
parsed semver-ish value `(major, minor, patch, had_v)` uses `Int` for the
numeric components because the source encodes an absent minor/patch as `-1`.
-/

/-- Parsed result of `parse_semverish`: `(major, minor, patch, had_v_prefix)`,
with `-1` for a missing minor or patch, as in the Python source. -/
abbrev Semv := Int × Int × Int × Bool

/-- Numeric value of a digit string, as Python `int()` on a decimal string. -/
def digitsVal (ds : List Char) : Nat :=
  ds.foldl (fun a c => a * 10 + (c.toNat - 48)) 0

/-- Split a character list into its maximal leading run of decimal digits and
the rest; this models one `(\d+)` group of the `SEMVER_RE` regex. -/
def splitDigits : List Char → List Char × List Char
  | [] => ([], [])
  | c :: cs =>
    if c.isDigit then
      let p := splitDigits cs
      (c :: p.1, p.2)
    else ([], c :: cs)

/-- Whether the string starts with the marker `sha256:`; models Python
`tag.startswith("sha256:")` in `split_suffix`. -/
def startsSha256 : List Char → Bool
  | 's' :: 'h' :: 'a' :: '2' :: '5' :: '6' :: ':' :: _ => true
  | _ => false

/-- Split at the first `-`: the characters before it and the characters after
it; models Python `tag.split("-", 1)`. -/
def splitOnDash : List Char → List Char × List Char
  | [] => ([], [])
  | c :: cs =>
    if c = '-' then ([], cs)
    else
      let p := splitOnDash cs
      (c :: p.1, p.2)

/-- Python `split_suffix` (check_compose_images.py lines 193-201): split
`2.7-alpine` into `(2.7, some alpine)`; a tag without `-`, or one that starts
with `sha256:`, keeps `none` as suffix. -/
def split_suffix (tag : String) : String × Option String :=
  if tag.data.contains '-' && !startsSha256 tag.data then
    (String.mk (splitOnDash tag.data).1, some (String.mk (splitOnDash tag.data).2))
  else (tag, none)

/-- Whether the first character is `v`; models Python `s.startswith("v")`. -/
def headIsV : List Char → Bool
  | c :: _ => c == 'v'
  | [] => false

/-- The anchored body of the regex `^v?(\d+)(?:\.(\d+))?(?:\.(\d+))?$` after
the optional `v`: one to three dot-separated digit groups and nothing else,
with `-1` for each absent group, as in `parse_semverish`. -/
def parseGroups (s : List Char) : Option (Int × Int × Int) :=
  match splitDigits s with
  | ([], _) => none
  | (d1, []) => some ((digitsVal d1 : Int), -1, -1)
  | (d1, '.' :: r2) =>
    match splitDigits r2 with
    | ([], _) => none
    | (d2, []) => some ((digitsVal d1 : Int), (digitsVal d2 : Int), -1)
    | (d2, '.' :: r4) =>
      match splitDigits r4 with
      | ([], _) => none
      | (d3, []) => some ((digitsVal d1 : Int), (digitsVal d2 : Int), (digitsVal d3 : Int))
      | (_, _ :: _) => none
    | (_, _ :: _) => none
  | (_, _ :: _) => none

/-- Python `parse_semverish` (check_compose_images.py lines 204-216): parse
`v?MAJOR(.MINOR)?(.PATCH)?`, returning `(maj, min, pat, had_v)` with missing
parts as `-1`, or `none` when the string does not match the regex. -/
def parse_semverish (s : String) : Option Semv :=
  match parseGroups (if headIsV s.data then s.data.tail else s.data) with
  | some mmp => some (mmp.1, mmp.2.1, mmp.2.2, headIsV s.data)
  | none => none

/-- Python `semver_sort_key` (check_compose_images.py lines 219-221): drop the
`had_v` flag and replace an absent (`-1`) minor or patch by `0`. -/
def semver_sort_key (v : Semv) : Int × Int × Int :=
  (v.1, max v.2.1 0, max v.2.2.1 0)

/-- Python tuple `<=` on the 3-tuples produced by `semver_sort_key`:
lexicographic order. -/
def keyLe (a b : Int × Int × Int) : Bool :=
  decide (a.1 < b.1 ∨ (a.1 = b.1 ∧ (a.2.1 < b.2.1 ∨ (a.2.1 = b.2.1 ∧ a.2.2 ≤ b.2.2))))

/-- Python tuple `<` on the 3-tuples produced by `semver_sort_key`:
strict lexicographic order. -/
def keyLt (a b : Int × Int × Int) : Bool :=
  decide (a.1 < b.1 ∨ (a.1 = b.1 ∧ (a.2.1 < b.2.1 ∨ (a.2.1 = b.2.1 ∧ a.2.2 < b.2.2))))

/-- The candidate filter of `choose_newer_tag` (check_compose_images.py lines
244-253): keep the tags whose suffix equals the old suffix and whose base
parses, paired with their parsed value, in input order. -/
def candidatePool (old_suffix : Option String) (all_tags : List String) :
    List (String × Semv) :=
  all_tags.filterMap fun t =>
    if old_suffix == (split_suffix t).2 then
      match parse_semverish (split_suffix t).1 with
      | some pv => some (t, pv)
      | none => none
    else none

/-- The `preferred` pool of `choose_newer_tag` (check_compose_images.py lines
259-272): same-major candidates that also match the old minor when the old tag
has one; all same-major candidates when it does not. -/
def preferredPool (old_maj old_min : Int) (cands : List (String × Semv)) :
    List (String × Semv) :=
  cands.filter fun c =>
    c.2.1 == old_maj && (if old_min ≥ 0 then c.2.2.1 == old_min else true)

/-- The `fallback` pool of `choose_newer_tag` (check_compose_images.py lines
259-272): same-major candidates whose minor differs from the old minor; empty
when the old tag has no minor. -/
def fallbackPool (old_maj old_min : Int) (cands : List (String × Semv)) :
    List (String × Semv) :=
  cands.filter fun c =>
    c.2.1 == old_maj && (if old_min ≥ 0 then c.2.2.1 != old_min else false)

/-- Python `pool = preferred if preferred else fallback` (line 274). -/
def poolOf (old_v : Semv) (cands : List (String × Semv)) :
    List (String × Semv) :=
  if (preferredPool old_v.1 old_v.2.1 cands).isEmpty then
    fallbackPool old_v.1 old_v.2.1 cands
  else preferredPool old_v.1 old_v.2.1 cands

/-- Python `sorted(pool, key=semver_sort_key)[-1]` on a nonempty pool: the last
element attaining the maximal sort key (Python sort is stable). -/
def pickMax (h : String × Semv) (t : List (String × Semv)) : String × Semv :=
  t.foldl (fun acc x => if keyLt (semver_sort_key x.2) (semver_sort_key acc.2) then acc else x) h

/-- A single quote character, written by code point to keep the file ASCII-simple. -/
def quoteCh : Char := Char.ofNat 39

/-- The note of Python line 235: the f-string quoting the old tag followed by
`is not a version tag`. -/
def notVersionTagNote (old_tag : String) : String :=
  String.mk (quoteCh :: old_tag.data) ++ String.mk (quoteCh :: " is not a version tag".data)

/-- Python `choose_newer_tag` (check_compose_images.py lines 224-286): returns
`(new_tag?, note)` for an old tag against the list of available tags. -/
def choose_newer_tag (old_tag : String) (all_tags : List String) :
    Option String × String :=
  if old_tag == "latest" || old_tag == "stable" then
    (none, notVersionTagNote old_tag)
  else
    match parse_semverish (split_suffix old_tag).1 with
    | none => (none, "tag not semver-like; no safe upgrade suggestion")
    | some old_v =>
      if (candidatePool (split_suffix old_tag).2 all_tags).isEmpty then
        (none, "no semver-like candidate tags found")
      else
        match poolOf old_v (candidatePool (split_suffix old_tag).2 all_tags) with
        | [] => (none, "no newer tag found in same major")
        | h :: t =>
          if keyLe (semver_sort_key (pickMax h t).2) (semver_sort_key old_v) then
            (none, "already at newest matching tag")
          else (some (pickMax h t).1, "newer version available")

/-- Wildcard matching of `fnmatch.fnmatch` as used by
`DockerVolumeSync.matches_pattern` (docker_volume_sync.py lines 218-221) on a
POSIX system: `*` matches any run of characters, `?` any single character, and
every other character matches itself. Bracket classes are not modelled; none of
the repository's whitelist patterns use them. -/
def fnm : List Char → List Char → Bool
  | [], [] => true
  | [], _ :: _ => false
  | '*' :: ps, [] => fnm ps []
  | '*' :: ps, c :: cs => fnm ps (c :: cs) || fnm ('*' :: ps) cs
  | '?' :: _, [] => false
  | '?' :: ps, _ :: cs => fnm ps cs
  | _ :: _, [] => false
  | p :: ps, c :: cs => p == c && fnm ps cs
termination_by pat s => (pat.length, s.length)

/-- Python `DockerVolumeSync.matches_pattern` (docker_volume_sync.py lines
218-221): `fnmatch.fnmatch(file_path, pattern)`. -/
def matches_pattern (file_path : String) (pat : String) : Bool :=
  fnm pat.data file_path.data

/-- One service's entry of the whitelist configuration: its `include` and
`exclude` glob pattern lists. -/
structure WhitelistRule where
  includePatterns : List String
  excludePatterns : List String

/-- Python `self.whitelist_patterns.get(service, {})` followed by
`.get("include", [])` / `.get("exclude", [])` (docker_volume_sync.py lines
198-200), with the per-service mapping as an association list. -/
def lookupRules (rules : List (String × WhitelistRule)) (service : String) :
    WhitelistRule :=
  match rules.find? (fun r => r.1 == service) with
  | some r => r.2
  | none => ⟨[], []⟩

/-- Python `DockerVolumeSync.should_include_file` (docker_volume_sync.py lines
193-215) on the already-relativised path string: every exclude pattern is
checked first and forces `false`; otherwise the first include match gives
`true`; otherwise `false`. -/
def should_include_file (rules : List (String × WhitelistRule))
    (service : String) (relative_str : String) : Bool :=
  if (lookupRules rules service).excludePatterns.any
      (fun p => matches_pattern relative_str p) then false
  else if (lookupRules rules service).includePatterns.any
      (fun p => matches_pattern relative_str p) then true
  else false

/-- The STATUS column values printed by `main` (check_compose_images.py lines
328-360). -/
inductive RowStatus
  | upgrade
  | current
  | floating
  | unsupported
  | error
deriving DecidableEq, Repr

/-- A normalized image reference as produced by `normalize_image`: registry,
repository and tag. -/
structure ImageRefM where
  registry : String
  repo : String
  tag : String

/-- The per-image body of `main`'s loop (check_compose_images.py lines
322-360): Docker Hub images get their tag list (or an error) from the Hub;
every exception is caught and turned into an ERROR row; other registries are
UNSUPPORTED. The Hub interaction is abstracted as an `Except` input. -/
def processRef (ref : ImageRefM) (hubTags : Except String (List String)) :
    RowStatus × Option String × String :=
  if ref.registry == "docker.io" then
    match hubTags with
    | Except.error e => (RowStatus.error, none, "Docker Hub error: " ++ e)
    | Except.ok tags =>
      let r := choose_newer_tag ref.tag tags
      if ref.tag == "latest" || ref.tag == "stable" then (RowStatus.floating, r.1, r.2)
      else
        match r.1 with
        | some t => (RowStatus.upgrade, some t, r.2)
        | none => (RowStatus.current, none, r.2)
  else (RowStatus.unsupported, none, "non-Docker Hub registry; tag listing not implemented")

/-- The control flow of `main` (check_compose_images.py lines 293-368) that
decides the exit code, with the filesystem and network abstracted as inputs:
if no compose files were found, `main` returns 2 before any image is
processed; otherwise it processes every image (each row only prints a status;
no row changes the return value) and returns 0. -/
def mainResult (files : List String) (refs : List ImageRefM)
    (hub : ImageRefM → Except String (List String)) : Nat × List RowStatus :=
  if files.isEmpty then (2, [])
  else (0, refs.map fun r => (processRef r (hub r)).1)

/-- Every element of the candidate pool comes from the input tag list, carries
the old suffix, and is paired with the parse of its own base. -/
theorem mem_candidatePool {sfx : Option String} {tags : List String}
    {t : String} {pv : Semv} (h : (t, pv) ∈ candidatePool sfx tags) :
    t ∈ tags ∧ (split_suffix t).2 = sfx ∧
      parse_semverish (split_suffix t).1 = some pv := by
  unfold candidatePool at h
  rw [List.mem_filterMap] at h
  obtain ⟨a, ha, hfa⟩ := h
  split at hfa
  case isTrue hs =>
    split at hfa
    case _ pv' hp =>
      rw [Option.some.injEq, Prod.mk.injEq] at hfa
      obtain ⟨rfl, rfl⟩ := hfa
      exact ⟨ha, (eq_of_beq hs).symm, hp⟩
    case _ => exact absurd hfa (by simp)
  case isFalse => exact absurd hfa (by simp)

/-- The element picked by `pickMax` belongs to the pool it was picked from. -/
theorem pickMax_mem (h : String × Semv) (t : List (String × Semv)) :
    pickMax h t ∈ h :: t := by
  unfold pickMax
  induction t generalizing h with
  | nil => simp
  | cons x xs ih =>
    simp only [List.foldl_cons]
    rcases List.mem_cons.mp
        (ih (if keyLt (semver_sort_key x.2) (semver_sort_key h.2) then h else x)) with h1 | h1
    · rw [h1]
      split
      · exact List.mem_cons_self _ _
      · exact List.mem_cons_of_mem _ (List.mem_cons_self _ _)
    · exact List.mem_cons_of_mem _ (List.mem_cons_of_mem _ h1)

/-- Every element of the selected pool is a candidate and has the old major. -/
theorem mem_poolOf {v : Semv} {cands : List (String × Semv)} {p : String × Semv}
    (h : p ∈ poolOf v cands) : p ∈ cands ∧ p.2.1 = v.1 := by
  unfold poolOf at h
  split at h
  · unfold fallbackPool at h
    rw [List.mem_filter] at h
    refine ⟨h.1, ?_⟩
    have h2 := h.2
    rw [Bool.and_eq_true] at h2
    exact eq_of_beq h2.1
  · unfold preferredPool at h
    rw [List.mem_filter] at h
    refine ⟨h.1, ?_⟩
    have h2 := h.2
    rw [Bool.and_eq_true] at h2
    exact eq_of_beq h2.1

/-- Failure of the lax lexicographic comparison in one direction is success of
the strict one in the other. -/
theorem keyLt_of_keyLe_false {a b : Int × Int × Int} (h : keyLe a b = false) :
    keyLt b a = true := by
  unfold keyLe at h
  unfold keyLt
  rw [decide_eq_false_iff_not] at h
  rw [decide_eq_true_eq]
  by_contra hc
  exact h (by omega)

/-- Characterization of a successful suggestion: `choose_newer_tag` returned
`some t` exactly by picking the maximum of the selected pool and finding it
strictly newer than the old parsed tag. -/
theorem suggestion_spec {old : String} {tags : List String} {t : String}
    (h : (choose_newer_tag old tags).1 = some t) :
    ∃ ov : Semv, parse_semverish (split_suffix old).1 = some ov ∧
      ∃ pv : Semv, (t, pv) ∈ poolOf ov (candidatePool (split_suffix old).2 tags) ∧
        keyLe (semver_sort_key pv) (semver_sort_key ov) = false := by
  unfold choose_newer_tag at h
  split at h
  · exact absurd h (by simp)
  · split at h
    case _ => exact absurd h (by simp)
    case _ ov hov =>
      split at h
      · exact absurd h (by simp)
      · split at h
        case _ hpool => exact absurd h (by simp)
        case _ hd tl hpool =>
          split at h
          case isTrue => exact absurd h (by simp)
          case isFalse hk =>
            rw [Option.some.injEq] at h
            refine ⟨ov, hov, (pickMax hd tl).2, ?_, ?_⟩
            · rw [hpool, ← h]
              have := pickMax_mem hd tl
              simpa using this
            · simpa using hk

/-- C1: for old tag `2.7` and candidates `2.6`, `2.7`, `2.8`, `2.9-alpine`,
`choose_newer_tag` returns no suggestion with the "already at newest matching
tag" note; and in general, whenever the preferred (minor-matching) pool is
nonempty, the selected pool is exactly the preferred pool, so the
same-major/different-minor fallback pool is never consulted. -/
theorem minor_match_pool_priority :
    choose_newer_tag "2.7" ["2.6", "2.7", "2.8", "2.9-alpine"] =
      (none, "already at newest matching tag") ∧
    ∀ (v : Semv) (cands : List (String × Semv)),
      preferredPool v.1 v.2.1 cands ≠ [] →
      poolOf v cands = preferredPool v.1 v.2.1 cands := by
  refine ⟨by decide, ?_⟩
  intro v cands hne
  simp [poolOf, List.isEmpty_iff, hne]

/-- Witness for the pool-priority half of C1 at a concrete pool. -/
theorem minor_match_pool_priority_witness :
    poolOf ((2 : Int), (7 : Int), (-1 : Int), false)
        [("2.7", ((2 : Int), (7 : Int), (-1 : Int), false))] =
      preferredPool 2 7 [("2.7", ((2 : Int), (7 : Int), (-1 : Int), false))] :=
  minor_match_pool_priority.2 (2, 7, -1, false)
    [("2.7", (2, 7, -1, false))] (by decide)

/-- C2: whenever `choose_newer_tag` suggests a tag, the sort key of the
suggestion's parsed base is strictly greater than the old tag's; and when the
pool maximum is not strictly greater, the result is no suggestion with the
"already at newest matching tag" note. -/
theorem choose_newer_tag_strict_upgrade :
    (∀ old tags t, (choose_newer_tag old tags).1 = some t →
      ∃ ov pv : Semv, parse_semverish (split_suffix old).1 = some ov ∧
        parse_semverish (split_suffix t).1 = some pv ∧
        keyLt (semver_sort_key ov) (semver_sort_key pv) = true) ∧
    (∀ old tags (ov : Semv) hd tl,
      (old == "latest" || old == "stable") = false →
      parse_semverish (split_suffix old).1 = some ov →
      poolOf ov (candidatePool (split_suffix old).2 tags) = hd :: tl →
      keyLe (semver_sort_key (pickMax hd tl).2) (semver_sort_key ov) = true →
      choose_newer_tag old tags = (none, "already at newest matching tag")) := by
  constructor
  · intro old tags t h
    obtain ⟨ov, hov, pv, hmem, hk⟩ := suggestion_spec h
    exact ⟨ov, pv, hov, (mem_candidatePool (mem_poolOf hmem).1).2.2,
      keyLt_of_keyLe_false hk⟩
  · intro old tags ov hd tl h1 hov hpool hk
    have hhd : hd ∈ poolOf ov (candidatePool (split_suffix old).2 tags) := by
      rw [hpool]
      exact List.mem_cons_self _ _
    have hne := List.ne_nil_of_mem (mem_poolOf hhd).1
    unfold choose_newer_tag
    rw [h1, hov]
    simp [hpool, hk, List.isEmpty_iff, hne]

/-- Witness for C2 at old tag `1.0` and candidate `1.1`. -/
theorem choose_newer_tag_strict_upgrade_witness :
    ∃ ov pv : Semv, parse_semverish (split_suffix "1.0").1 = some ov ∧
      parse_semverish (split_suffix "1.1").1 = some pv ∧
      keyLt (semver_sort_key ov) (semver_sort_key pv) = true :=
  choose_newer_tag_strict_upgrade.1 "1.0" ["1.1"] "1.1" (by decide)

/-- C3: a suggested tag always carries exactly the old tag's suffix
(including both being absent). -/
theorem suggestion_keeps_suffix :
    ∀ old tags t, (choose_newer_tag old tags).1 = some t →
      (split_suffix t).2 = (split_suffix old).2 := by
  intro old tags t h
  obtain ⟨ov, hov, pv, hmem, hk⟩ := suggestion_spec h
  exact (mem_candidatePool (mem_poolOf hmem).1).2.1

/-- Witness for C3 at old tag `1.0` and suggestion `v1.1`. -/
theorem suggestion_keeps_suffix_witness :
    (split_suffix "v1.1").2 = (split_suffix "1.0").2 :=
  suggestion_keeps_suffix "1.0" ["v1.1"] "v1.1" (by decide)

/-- C5: for the floating tags `latest` and `stable`, `choose_newer_tag`
returns no suggestion and the quoted "is not a version tag" note, for every
candidate list. -/
theorem floating_tag_no_suggestion :
    ∀ tags : List String,
      choose_newer_tag "latest" tags = (none, notVersionTagNote "latest") ∧
      choose_newer_tag "stable" tags = (none, notVersionTagNote "stable") := by
  intro tags
  exact ⟨rfl, rfl⟩

/-- C6: for old tag `v1.7.0` and candidates `v1.7.1`, `v1.8.0`, `v2.0.0`, the
suggestion is `v1.7.1`. -/
theorem example_v170_suggests_v171 :
    choose_newer_tag "v1.7.0" ["v1.7.1", "v1.8.0", "v2.0.0"] =
      (some "v1.7.1", "newer version available") := by decide

/-- C9: a suggested tag is always an element of the candidate list, and its
base parses with the same major as the old tag's base. -/
theorem suggestion_from_candidates_same_major :
    ∀ old tags t, (choose_newer_tag old tags).1 = some t →
      t ∈ tags ∧
      ∃ ov pv : Semv, parse_semverish (split_suffix old).1 = some ov ∧
        parse_semverish (split_suffix t).1 = some pv ∧ pv.1 = ov.1 := by
  intro old tags t h
  obtain ⟨ov, hov, pv, hmem, hk⟩ := suggestion_spec h
  obtain ⟨hc, hmaj⟩ := mem_poolOf hmem
  obtain ⟨ht, hsfx, hparse⟩ := mem_candidatePool hc
  exact ⟨ht, ov, pv, hov, hparse, hmaj⟩

/-- Witness for C9 at old tag `1.0` and suggestion `v1.1`. -/
theorem suggestion_from_candidates_same_major_witness :
    "v1.1" ∈ ["v1.1"] ∧
    ∃ ov pv : Semv, parse_semverish (split_suffix "1.0").1 = some ov ∧
      parse_semverish (split_suffix "v1.1").1 = some pv ∧ pv.1 = ov.1 :=
  suggestion_from_candidates_same_major "1.0" ["v1.1"] "v1.1" (by decide)

/-- On an all-digit string the digit scanner consumes everything. -/
theorem splitDigits_all_digits {ds : List Char}
    (h : ∀ c ∈ ds, c.isDigit = true) : splitDigits ds = (ds, []) := by
  induction ds with
  | nil => rfl
  | cons c cs ih =>
    have hc := h c (List.mem_cons_self c cs)
    have hcs := ih (fun x hx => h x (List.mem_cons_of_mem c hx))
    simp [splitDigits, hc, hcs]

/-- A nonempty all-digit string is a single `MAJOR` group. -/
theorem parseGroups_all_digits {c : Char} {cs : List Char}
    (h : ∀ x ∈ c :: cs, x.isDigit = true) :
    parseGroups (c :: cs) = some ((digitsVal (c :: cs) : Int), -1, -1) := by
  unfold parseGroups
  rw [splitDigits_all_digits h]

/-- Digits followed by a dot: the digit scanner stops at the dot. -/
theorem splitDigits_append_dot {ds rest : List Char}
    (h : ∀ c ∈ ds, c.isDigit = true) :
    splitDigits (ds ++ ('.' :: rest)) = (ds, '.' :: rest) := by
  induction ds with
  | nil => rfl
  | cons c cs ih =>
    have hc := h c (List.mem_cons_self c cs)
    have hcs := ih (fun x hx => h x (List.mem_cons_of_mem c hx))
    simp [splitDigits, hc, hcs]

/-- Two nonempty digit groups separated by a dot: `MAJOR.MINOR`, patch absent. -/
theorem parseGroups_two {c1 c2 : Char} {t1 t2 : List Char}
    (h1 : ∀ x ∈ c1 :: t1, x.isDigit = true)
    (h2 : ∀ x ∈ c2 :: t2, x.isDigit = true) :
    parseGroups ((c1 :: t1) ++ ('.' :: c2 :: t2)) =
      some ((digitsVal (c1 :: t1) : Int), (digitsVal (c2 :: t2) : Int), -1) := by
  unfold parseGroups
  rw [splitDigits_append_dot h1]
  simp only [splitDigits_all_digits h2]

/-- Three nonempty digit groups separated by dots: `MAJOR.MINOR.PATCH`. -/
theorem parseGroups_three {c1 c2 c3 : Char} {t1 t2 t3 : List Char}
    (h1 : ∀ x ∈ c1 :: t1, x.isDigit = true)
    (h2 : ∀ x ∈ c2 :: t2, x.isDigit = true)
    (h3 : ∀ x ∈ c3 :: t3, x.isDigit = true) :
    parseGroups ((c1 :: t1) ++ ('.' :: ((c2 :: t2) ++ ('.' :: c3 :: t3)))) =
      some ((digitsVal (c1 :: t1) : Int), (digitsVal (c2 :: t2) : Int),
        (digitsVal (c3 :: t3) : Int)) := by
  unfold parseGroups
  rw [splitDigits_append_dot h1]
  simp only [splitDigits_append_dot h2, splitDigits_all_digits h3]

/-- Lift a `parseGroups` result to `parse_semverish` for a base whose first
character is a digit (hence not `v`). -/
theorem parse_semverish_no_v {c : Char} {cs : List Char} (hc : c.isDigit = true)
    {r : Int × Int × Int} (hg : parseGroups (c :: cs) = some r) :
    parse_semverish (String.mk (c :: cs)) = some (r.1, r.2.1, r.2.2, false) := by
  have hv : (c == 'v') = false := by
    rw [beq_eq_false_iff_ne]
    intro e
    rw [e] at hc
    exact absurd hc (by decide)
  have hsd : (String.mk (c :: cs)).data = c :: cs := rfl
  unfold parse_semverish
  rw [hsd]
  simp only [headIsV, hv, Bool.false_eq_true, if_false, hg]

/-- Lift a `parseGroups` result to `parse_semverish` for a `v`-prefixed base. -/
theorem parse_semverish_with_v {l : List Char} {r : Int × Int × Int}
    (hg : parseGroups l = some r) :
    parse_semverish (String.mk ('v' :: l)) = some (r.1, r.2.1, r.2.2, true) := by
  have hsd : (String.mk ('v' :: l)).data = 'v' :: l := rfl
  unfold parse_semverish
  rw [hsd]
  simp only [headIsV, beq_self_eq_true, if_true, List.tail_cons, hg]

/-- C7: every base matching `v?MAJOR(.MINOR)?(.PATCH)?` — an optional `v`
followed by one, two, or three nonempty digit groups separated by dots —
parses with `-1` in each absent minor/patch position and the `v` flag
reflecting the prefix; in particular `2` parses as `(2, -1, -1)`. The ranking
key `semver_sort_key` maps those absent (`-1`) components to `0`, so `2` ranks
as `(2, 0, 0)`. -/
theorem absent_parts_parse_and_rank :
    (∀ (hv : Bool) (d1 : List Char), d1 ≠ [] → (∀ c ∈ d1, c.isDigit = true) →
      parse_semverish (String.mk (if hv then 'v' :: d1 else d1)) =
        some ((digitsVal d1 : Int), -1, -1, hv)) ∧
    (∀ (hv : Bool) (d1 d2 : List Char), d1 ≠ [] → d2 ≠ [] →
      (∀ c ∈ d1, c.isDigit = true) → (∀ c ∈ d2, c.isDigit = true) →
      parse_semverish
          (String.mk (if hv then 'v' :: (d1 ++ ('.' :: d2)) else d1 ++ ('.' :: d2))) =
        some ((digitsVal d1 : Int), (digitsVal d2 : Int), -1, hv)) ∧
    (∀ (hv : Bool) (d1 d2 d3 : List Char), d1 ≠ [] → d2 ≠ [] → d3 ≠ [] →
      (∀ c ∈ d1, c.isDigit = true) → (∀ c ∈ d2, c.isDigit = true) →
      (∀ c ∈ d3, c.isDigit = true) →
      parse_semverish
          (String.mk (if hv then 'v' :: (d1 ++ ('.' :: (d2 ++ ('.' :: d3))))
            else d1 ++ ('.' :: (d2 ++ ('.' :: d3))))) =
        some ((digitsVal d1 : Int), (digitsVal d2 : Int), (digitsVal d3 : Int), hv)) ∧
    parse_semverish "2" = some (2, -1, -1, false) ∧
    semver_sort_key (2, -1, -1, false) = (2, 0, 0) ∧
    (∀ (m p : Int) (b : Bool), semver_sort_key (m, -1, p, b) = (m, 0, max p 0)) ∧
    (∀ (m mi : Int) (b : Bool), semver_sort_key (m, mi, -1, b) = (m, max mi 0, 0)) := by
  refine ⟨?_, ?_, ?_, by decide, by decide, fun m p b => rfl, fun m mi b => rfl⟩
  · intro hv d1 h1 hd1
    obtain ⟨c1, t1, rfl⟩ := List.exists_cons_of_ne_nil h1
    cases hv
    · exact parse_semverish_no_v (hd1 c1 (List.mem_cons_self c1 t1))
        (parseGroups_all_digits hd1)
    · exact parse_semverish_with_v (parseGroups_all_digits hd1)
  · intro hv d1 d2 h1 h2 hd1 hd2
    obtain ⟨c1, t1, rfl⟩ := List.exists_cons_of_ne_nil h1
    obtain ⟨c2, t2, rfl⟩ := List.exists_cons_of_ne_nil h2
    cases hv
    · exact parse_semverish_no_v (hd1 c1 (List.mem_cons_self c1 t1))
        (parseGroups_two hd1 hd2)
    · exact parse_semverish_with_v (parseGroups_two hd1 hd2)
  · intro hv d1 d2 d3 h1 h2 h3 hd1 hd2 hd3
    obtain ⟨c1, t1, rfl⟩ := List.exists_cons_of_ne_nil h1
    obtain ⟨c2, t2, rfl⟩ := List.exists_cons_of_ne_nil h2
    obtain ⟨c3, t3, rfl⟩ := List.exists_cons_of_ne_nil h3
    cases hv
    · exact parse_semverish_no_v (hd1 c1 (List.mem_cons_self c1 t1))
        (parseGroups_three hd1 hd2 hd3)
    · exact parse_semverish_with_v (parseGroups_three hd1 hd2 hd3)

/-- Witness for C7: the one-group case at `2` and the `v`-prefixed two-group
case at `v1.7` (minor present, patch absent). -/
theorem absent_parts_parse_and_rank_witness :
    parse_semverish (String.mk ['2']) =
      some ((digitsVal ['2'] : Int), -1, -1, false) ∧
    parse_semverish (String.mk ['v', '1', '.', '7']) =
      some ((digitsVal ['1'] : Int), (digitsVal ['7'] : Int), -1, true) :=
  ⟨absent_parts_parse_and_rank.1 false ['2'] (by decide) (by decide),
   absent_parts_parse_and_rank.2.1 true ['1'] ['7'] (by decide) (by decide)
     (by decide) (by decide)⟩

/-- C10: the `had_v` flag of a parsed tag plays no role in ranking — the sort
key is invariant under it, a base and its `v`-prefixed variant parse to the
same numbers — so a suggestion may carry a different `v` prefix than the old
tag: for old tag `1.0` and candidate `v1.1` the suggestion is `v1.1`. -/
theorem had_v_ignored :
    choose_newer_tag "1.0" ["v1.1"] = (some "v1.1", "newer version available") ∧
    (∀ (m mi p : Int) (b b' : Bool),
      semver_sort_key (m, mi, p, b) = semver_sort_key (m, mi, p, b')) ∧
    (∀ (s : String) (m mi p : Int),
      parse_semverish s = some (m, mi, p, false) →
      parse_semverish (String.mk ('v' :: s.data)) = some (m, mi, p, true)) := by
  refine ⟨by decide, fun m mi p b b' => rfl, ?_⟩
  intro s m mi p h
  unfold parse_semverish at h ⊢
  have hd : (String.mk ('v' :: s.data)).data = 'v' :: s.data := rfl
  rw [hd]
  simp only [headIsV, beq_self_eq_true, if_true, List.tail_cons]
  by_cases hv : headIsV s.data = true
  · rw [hv] at h
    simp only [if_true] at h
    split at h
    case _ mmp hg =>
      rw [Option.some.injEq, Prod.mk.injEq, Prod.mk.injEq, Prod.mk.injEq] at h
      exact absurd h.2.2.2.symm Bool.false_ne_true
    case _ => exact absurd h (by simp)
  · have hv' : headIsV s.data = false := by
      revert hv
      cases headIsV s.data <;> simp
    rw [hv'] at h
    simp only [Bool.false_eq_true, if_false] at h
    split at h
    case _ mmp hg =>
      rw [Option.some.injEq, Prod.mk.injEq, Prod.mk.injEq, Prod.mk.injEq] at h
      rw [Option.some.injEq, Prod.mk.injEq, Prod.mk.injEq, Prod.mk.injEq]
      exact ⟨h.1, h.2.1, h.2.2.1, rfl⟩
    case _ => exact absurd h (by simp)

/-- Witness for C10: `1.1` against its `v`-prefixed variant. -/
theorem had_v_ignored_witness :
    parse_semverish (String.mk ('v' :: "1.1".data)) = some (1, 1, -1, true) :=
  had_v_ignored.2.2 "1.1" 1 1 (-1) (by decide)

/-- C4: in the whitelist filter, a path matching any exclude pattern of the
service's rule is excluded no matter which include patterns it matches, and a
path matching no pattern at all is excluded by default. -/
theorem whitelist_exclude_wins :
    ∀ rules service path,
      ((∃ p ∈ (lookupRules rules service).excludePatterns,
          matches_pattern path p = true) →
        should_include_file rules service path = false) ∧
      ((∀ p ∈ (lookupRules rules service).excludePatterns,
          matches_pattern path p = false) →
       (∀ p ∈ (lookupRules rules service).includePatterns,
          matches_pattern path p = false) →
        should_include_file rules service path = false) := by
  intro rules service path
  constructor
  · intro h
    obtain ⟨p, hp, hm⟩ := h
    have ha : (lookupRules rules service).excludePatterns.any
        (fun q => matches_pattern path q) = true :=
      List.any_eq_true.mpr ⟨p, hp, hm⟩
    simp [should_include_file, ha]
  · intro hex hinc
    have h1 : (lookupRules rules service).excludePatterns.any
        (fun q => matches_pattern path q) = false := by
      rw [Bool.eq_false_iff]
      intro hc
      obtain ⟨p, hp, hm⟩ := List.any_eq_true.mp hc
      rw [hex p hp] at hm
      exact Bool.false_ne_true hm
    have h2 : (lookupRules rules service).includePatterns.any
        (fun q => matches_pattern path q) = false := by
      rw [Bool.eq_false_iff]
      intro hc
      obtain ⟨p, hp, hm⟩ := List.any_eq_true.mp hc
      rw [hinc p hp] at hm
      exact Bool.false_ne_true hm
    simp [should_include_file, h1, h2]

/-- Witness for C4: a path matching both an include and an exclude pattern of
a one-service rule set is excluded. -/
theorem whitelist_exclude_wins_witness :
    should_include_file
        [("homeassistant", ⟨["*.yaml"], ["secret*"]⟩)]
        "homeassistant" "secret.yaml" = false :=
  (whitelist_exclude_wins
      [("homeassistant", ⟨["*.yaml"], ["secret*"]⟩)]
      "homeassistant" "secret.yaml").1
    ⟨"secret*", by decide, by simp [matches_pattern, lookupRules, fnm]⟩

/-- C8: `main` exits with code 2 exactly when no compose files were found, and
with code 0 otherwise, for every set of images and every Hub behaviour — in
particular per-image registry errors leave the exit code at 0. -/
theorem main_exit_codes :
    ∀ files refs hub,
      (files = [] → (mainResult files refs hub).1 = 2) ∧
      (files ≠ [] → (mainResult files refs hub).1 = 0) := by
  intro files refs hub
  constructor
  · intro h
    subst h
    rfl
  · intro h
    simp [mainResult, List.isEmpty_iff, h]

/-- Witness for C8: no files gives 2; one file gives 0 even when the Hub
errors for every image. -/
theorem main_exit_codes_witness :
    (mainResult [] [] (fun _ => Except.error "HTTP 500")).1 = 2 ∧
    (mainResult ["stacks/docker-compose.yml"]
        [⟨"docker.io", "library/nginx", "1.25"⟩]
        (fun _ => Except.error "HTTP 500")).1 = 0 :=
  ⟨(main_exit_codes [] [] (fun _ => Except.error "HTTP 500")).1 rfl,
   (main_exit_codes ["stacks/docker-compose.yml"]
        [⟨"docker.io", "library/nginx", "1.25"⟩]
        (fun _ => Except.error "HTTP 500")).2 (by decide)⟩
